import Mathlib

/-!
Verification development for the GUI file manager
(`File_Manager_Command_Line_Version.py`).  The Python source is shallowly
embedded below: the filesystem is an explicit structure of directory paths,
file contents and entries that fail to stat; GUI dialogs become explicit
boolean parameters (confirmation answers) and `Feedback` events; widget
redisplay (`populate_tree` refresh calls after a mutation) is elided where
the refreshed rows are not part of the modelled operation result.
Paths are modelled as strings handled syntactically, mirroring the
`os.path` functions used by the source (`join`, `basename`, `dirname`,
`normpath`, `abspath`, `splitext`).
-/

/-- Feedback levels of the user-facing feedback channel (`messagebox.showinfo`
/ `showwarning` / `showerror` and `status_var.set`). -/
inductive Level
  | info
  | success
  | warning
  | error
deriving DecidableEq, Repr

/-- One user-facing feedback event: a level, a dialog title (empty for
status-bar messages) and a message text. -/
structure Feedback where
  level : Level
  title : String
  text : String
deriving DecidableEq, Repr

/-- Pending clipboard action of the GUI session (`self.clipboard["action"]`). -/
inductive ClipAction
  | copy
  | cut
deriving DecidableEq, Repr

/-- Mutable GUI session state: `self.current_path` and `self.clipboard`.
The Python clipboard dict has either both fields set or both `None`, which
is exactly an optional pair. -/
structure AppState where
  current_path : String
  clipboard : Option (String × ClipAction)
deriving DecidableEq, Repr

/-- Stat information used by `insert_item`: whether the path is a directory
and its size in bytes (`st_size`).  The modification time column is elided
(pure presentation, `datetime` formatting). -/
structure StatInfo where
  isDir : Bool
  size : Nat
deriving DecidableEq, Repr

/-- The filesystem at one instant: directory paths, file paths with their
byte contents, and `broken` paths that show up in a directory listing but
fail to stat (broken links or entries racing with deletion; `os.stat`,
`os.path.isdir` and `os.path.isfile` all fail on them).  Paths are absolute
and slash-separated; `broken` is disjoint from `dirs` and `files`. -/
structure FSys where
  dirs : List String
  files : List (String × List Nat)
  broken : List String
deriving DecidableEq, Repr

/-- Lowercase one ASCII character, as `str.lower` does on the ASCII names
used throughout. -/
def lowerChar (c : Char) : Char :=
  if 'A' ≤ c ∧ c ≤ 'Z' then Char.ofNat (c.toNat + 32) else c

/-- Uppercase one ASCII character, as `str.upper`. -/
def upperChar (c : Char) : Char :=
  if 'a' ≤ c ∧ c ≤ 'z' then Char.ofNat (c.toNat - 32) else c

/-- Lowercase a string (`str.lower`). -/
def strLower (s : String) : String := ⟨s.data.map lowerChar⟩

/-- Uppercase a string (`str.upper`). -/
def strUpper (s : String) : String := ⟨s.data.map upperChar⟩

/-- Lexicographic comparison of character lists by code point, the
comparison Python uses on the `str.lower` sort keys in `sorted`. -/
def lexLe : List Char → List Char → Bool
  | [], _ => true
  | _ :: _, [] => false
  | a :: as, b :: bs =>
    if a.toNat < b.toNat then true
    else if b.toNat < a.toNat then false
    else lexLe as bs

/-- Case-insensitive name order: compare the lowercased names, which is
what `sorted(..., key=str.lower)` orders by. -/
def ciLe (a b : String) : Bool := lexLe (strLower a).data (strLower b).data

/-- Boolean prefix test on character lists. -/
def isPre : List Char → List Char → Bool
  | [], _ => true
  | _ :: _, [] => false
  | a :: as, b :: bs => a = b && isPre as bs

/-- Split a character list at every slash (components of a path). -/
def splitSlash : List Char → List (List Char)
  | [] => [[]]
  | c :: r =>
    if c = '/' then [] :: splitSlash r
    else
      match splitSlash r with
      | [] => [[c]]
      | h :: t => (c :: h) :: t

/-- Join components with slashes, the inverse of `splitSlash`. -/
def joinSlash : List (List Char) → List Char
  | [] => []
  | [c] => c
  | c :: r => c ++ '/' :: joinSlash r

/-- Components of a path string. -/
def pathComps (p : String) : List (List Char) := splitSlash p.data

/-- Last path component, as `os.path.basename` (empty for a trailing
slash). -/
def basename (p : String) : String :=
  match (pathComps p).reverse with
  | [] => ""
  | c :: _ => ⟨c⟩

/-- Everything before the last path component, as `os.path.dirname`:
`dirname "/a/b" = "/a"`, `dirname "/a" = "/"`, `dirname "a" = ""`. -/
def dirname (p : String) : String :=
  let cs := pathComps p
  if cs.length ≤ 1 then ""
  else
    let d : List Char := joinSlash cs.dropLast
    if d = [] ∧ p.data.headD ' ' = '/' then "/" else ⟨d⟩

/-- Join two paths as `os.path.join` does for slash-separated paths: an
absolute second argument replaces the first, otherwise a single separator
is inserted. -/
def pathJoin (a b : String) : String :=
  if b.data.headD ' ' = '/' then b
  else if a = "" then b
  else if a.data.getLast? = some '/' then a ++ b
  else a ++ "/" ++ b

/-- Normalisation fold used by `normPath`: drop empty and dot components,
resolve dot-dot against the stack (at an absolute root a leading dot-dot
disappears; in a relative path it accumulates). -/
def normFold (isAbs : Bool) : List (List Char) → List (List Char) → List (List Char)
  | [], stack => stack.reverse
  | c :: r, stack =>
    if c = [] ∨ c = ['.'] then normFold isAbs r stack
    else if c = ['.', '.'] then
      match stack with
      | top :: rest =>
        if top = ['.', '.'] then normFold isAbs r (c :: stack)
        else normFold isAbs r rest
      | [] => if isAbs then normFold isAbs r [] else normFold isAbs r [c]
    else normFold isAbs r (c :: stack)

/-- Lexical path normalisation, as `os.path.normpath`. -/
def normPath (p : String) : String :=
  let isAbs := p.data.headD ' ' = '/'
  let comps := normFold isAbs (pathComps p) []
  if isAbs then ⟨'/' :: joinSlash comps⟩
  else if comps = [] then "." else ⟨joinSlash comps⟩

/-- Working directory of the process, used by `os.path.abspath` to resolve
relative paths.  The application itself only ever stores absolute paths. -/
def procCwd : String := "/"

/-- Absolutisation as `os.path.abspath`: normalise, prefixing the process
working directory when the path is relative. -/
def abspath (p : String) : String :=
  if p.data.headD ' ' = '/' then normPath p
  else normPath (pathJoin procCwd p)

/-- Home directory of the invoking user, the value of
`os.path.expanduser("~")` in this model. -/
def homeDir : String := "/home/user"

/-- Suffix of a character list starting at its last dot, when any. -/
def lastDotSuffix : List Char → Option (List Char)
  | [] => none
  | c :: r =>
    match lastDotSuffix r with
    | some s => some s
    | none => if c = '.' then some (c :: r) else none

/-- Extension part of `os.path.splitext`: the suffix from the last dot of
the final path component, provided some non-dot character of that component
precedes the dot (leading dots are part of the root, so `".txt"` has no
extension while `"x."` has extension `"."`). -/
def splitextExt (p : String) : String :=
  let lastComp := ((splitSlash p.data).reverse).headD []
  match lastDotSuffix lastComp with
  | none => ""
  | some s =>
    if (lastComp.take (lastComp.length - s.length)).any (fun c => c ≠ '.') then ⟨s⟩
    else ""


/-- Membership of a path among the directories (`os.path.isdir`). -/
def isdirFS (fs : FSys) (p : String) : Bool := fs.dirs.any (fun q => q = p)

/-- Content of a file at a path, when one exists there. -/
def fileContent (fs : FSys) (p : String) : Option (List Nat) :=
  fs.files.findSome? (fun pc => if pc.1 = p then some pc.2 else none)

/-- Membership of a path among the files (`os.path.isfile`). -/
def isfileFS (fs : FSys) (p : String) : Bool := (fileContent fs p).isSome

/-- Result of `os.stat`: fails (`none`) on missing and on broken paths. -/
def statFS (fs : FSys) (p : String) : Option StatInfo :=
  if isdirFS fs p then some ⟨true, 0⟩
  else
    match fileContent fs p with
    | some c => some ⟨false, c.length⟩
    | none => none

/-- Existence of a path as a directory or file (`os.path.exists`). -/
def existsPath (fs : FSys) (p : String) : Bool := isdirFS fs p || isfileFS fs p

/-- Names the operating system reports inside a directory, including broken
entries that will fail a later stat. -/
def childNames (fs : FSys) (p : String) : List String :=
  ((fs.dirs ++ fs.files.map Prod.fst ++ fs.broken).filter
    (fun q => dirname q = p)).map basename

/-- Result of `os.listdir`: the child names, or `none` for the
`FileNotFoundError` raised on a missing directory. -/
def listdir (fs : FSys) (p : String) : Option (List String) :=
  if isdirFS fs p then some (childNames fs p) else none

/-- Fuel-driven computation of the binary length of a number. -/
def bitLenAux : Nat → Nat → Nat
  | 0, _ => 0
  | fuel + 1, n => if n = 0 then 0 else bitLenAux fuel (n / 2) + 1

/-- Number of binary digits, as the Python `int.bit_length` method
(`bitLength 0 = 0`). -/
def bitLength (n : Nat) : Nat := bitLenAux n n

/-- Round the quotient of two numbers to the nearest integer, halves to
the even neighbour — the tie behaviour of the Python `round` builtin,
stated at exact arithmetic.  `round(n / d, 2)` of the source is
`roundHalfEvenDiv (100 * n) d` hundredths. -/
def roundHalfEvenDiv (n d : Nat) : Nat :=
  let q := n / d
  let r := n % d
  if 2 * r < d then q
  else if d < 2 * r then q + 1
  else if q % 2 = 0 then q else q + 1

/-- Render a count of hundredths the way Python prints the float
`round(x, 2)`: decimal point kept, trailing zero of the hundredths digit
dropped, at least one fractional digit. -/
def renderCenti (m : Nat) : String :=
  let ip := m / 100
  let fr := m % 100
  if fr = 0 then toString ip ++ ".0"
  else if fr % 10 = 0 then toString ip ++ "." ++ toString (fr / 10)
  else if fr < 10 then toString ip ++ ".0" ++ toString fr
  else toString ip ++ "." ++ toString fr

/-- Size formatter `get_human_readable_size` (source lines 410-417): unit
index from the bit length divided by ten and clamped to the table, the
scaled magnitude rounded to two decimal places.  The float division and
round of the source are modelled at exact precision: `round(b / 1024^i, 2)`
is the half-even rounding of `100 * b / 1024^i` hundredths. -/
def get_human_readable_size (size_bytes : Nat) : String :=
  if size_bytes = 0 then "0 B"
  else
    let size_name := ["B", "KB", "MB", "GB", "TB"]
    let i := min (size_name.length - 1) (bitLength size_bytes / 10)
    let s := roundHalfEvenDiv (100 * size_bytes) (1024 ^ i)
    renderCenti s ++ " " ++ size_name.getD i ""

/-- Size format written from the words of the claim: zero gives the
sentinel, otherwise the magnitude at unit index `min 4 (bitLength b / 10)`
rounded to two decimals, followed by that unit drawn from the table. -/
def claimSizeFormat (b : Nat) : String :=
  if b = 0 then "0 B"
  else
    let i := min 4 (bitLength b / 10)
    renderCenti (roundHalfEvenDiv (100 * b) (1024 ^ i)) ++ " " ++
      (["B", "KB", "MB", "GB", "TB"].getD i "")

/-- Case-insensitive order as a relation, for the sort calls of
`populate_tree`. -/
def ciLeR (a b : String) : Prop := ciLe a b = true

instance : DecidableRel ciLeR := fun a b => decEq (ciLe a b) true

/-- Stable case-insensitive sort, as `sorted(..., key=str.lower)`. -/
def sortCI (l : List String) : List String := List.insertionSort ciLeR l

/-- One row of the tabular listing (name, type, size columns and the tag
used to pick the double-click action). -/
structure Row where
  name : String
  itemType : String
  sizeStr : String
  tag : String
deriving DecidableEq, Repr

/-- Extensions tagged as text files for the internal editor. -/
def textExts : List String :=
  [".txt", ".py", ".json", ".xml", ".html", ".css", ".js", ".md"]

/-- One listing row from `insert_item` (source lines 184-200): a failed
stat is swallowed (`except ... pass`), giving no row and no feedback. -/
def insert_item (fs : FSys) (cur : String) (item_name : String) : Option Row :=
  let item_path := pathJoin cur item_name
  match statFS fs item_path with
  | none => none
  | some stInfo =>
    if isdirFS fs item_path then some ⟨item_name, "Folder", "", "folder"⟩
    else
      let ext := strLower (splitextExt item_name)
      let itemType := if ext ≠ "" then strUpper ext ++ " File" else "File"
      let tag := if textExts.any (fun e => e = ext) then "textfile" else "file"
      some ⟨item_name, itemType, get_human_readable_size stInfo.size, tag⟩

/-- Status-bar event closing a successful listing. -/
def loadedEv (n : Nat) : Feedback := ⟨.info, "", "Loaded " ++ toString n ++ " items."⟩

/-- Error dialog for a missing current directory. -/
def notFoundEv (p : String) : Feedback :=
  ⟨.error, "Not Found", "The path " ++ p ++ " does not exist."⟩

/-- Folder names of a listing, filtered by `os.path.isdir` and sorted
case-insensitively. -/
def folderNames (fs : FSys) (cur : String) (items : List String) : List String :=
  sortCI (items.filter (fun i => isdirFS fs (pathJoin cur i)))

/-- File names of a listing, filtered by `os.path.isfile` and sorted
case-insensitively. -/
def fileNamesCI (fs : FSys) (cur : String) (items : List String) : List String :=
  sortCI (items.filter (fun i => isfileFS fs (pathJoin cur i)))

/-- Rows displayed by `populate_tree`: the sorted folders, then the sorted
files, each passed through `insert_item`. -/
def buildRows (fs : FSys) (cur : String) (items : List String) : List Row :=
  (folderNames fs cur items ++ fileNamesCI fs cur items).filterMap (insert_item fs cur)

/-- Listing `populate_tree` (source lines 162-182).  On a missing current
directory the source shows an error, resets to the home directory and
recurses; the recursion is unrolled once since a second failure (home
itself missing) never terminates in the source — that divergence is the
`none` result.  The permission branch is not modelled (the filesystem
model has no permissions). -/
def populate_tree (fs : FSys) (st : AppState) :
    Option (AppState × List Row × List Feedback) :=
  match listdir fs st.current_path with
  | some items => some (st, buildRows fs st.current_path items, [loadedEv items.length])
  | none =>
    match listdir fs homeDir with
    | some items =>
      some ({ st with current_path := homeDir }, buildRows fs homeDir items,
        [notFoundEv st.current_path, loadedEv items.length])
    | none => none

/-- Error dialog of `navigate_to_path` for a non-directory target. -/
def invalidPathEv (p : String) : Feedback :=
  ⟨.error, "Invalid Path", p ++ " is not a directory."⟩

/-- Navigation `navigate_to_path` (source lines 202-207): only a directory
target updates `current_path` (to its absolutised form) and refreshes the
rows; anything else shows an error dialog and leaves everything alone.
The middle component is the refreshed rows (`none` when the tree was not
repopulated). -/
def navigate_to_path (fs : FSys) (st : AppState) (path : String) :
    Option (AppState × Option (List Row) × List Feedback) :=
  if isdirFS fs path then
    match populate_tree fs { st with current_path := abspath path } with
    | some (st2, rows, evs) => some (st2, some rows, evs)
    | none => none
  else some (st, none, [invalidPathEv path])

/-- Warning dialog of `create_file` for a name without an extension. -/
def invalidNameEv : Feedback :=
  ⟨.warning, "Invalid Name", "Please provide a file extension."⟩

/-- Status-bar event after a successful file creation. -/
def createdEv (name : String) : Feedback :=
  ⟨.info, "", "File " ++ name ++ " created."⟩

/-- Error dialog when the touch in `create_file` fails. -/
def createErrorEv : Feedback := ⟨.error, "Error", "Could not create file."⟩

/-- The `open(path, "a").close()` touch: fails on a directory, creates an
empty file when absent, leaves an existing file as it is (only the
modification time, which is not modelled, changes). -/
def touchFS (fs : FSys) (p : String) : Option FSys :=
  if isdirFS fs p then none
  else if isfileFS fs p then some fs
  else some { fs with files := fs.files ++ [(p, [])] }

/-- File creation `create_file` (source lines 311-322): an empty dialog
answer does nothing, a name whose `splitext` extension is empty is turned
away with a warning before any filesystem call, anything else is touched
inside the current directory. -/
def create_file (fs : FSys) (st : AppState) (name : String) : FSys × List Feedback :=
  if name = "" then (fs, [])
  else if splitextExt name = "" then (fs, [invalidNameEv])
  else
    match touchFS fs (pathJoin st.current_path name) with
    | some fs2 => (fs2, [createdEv name])
    | none => (fs, [createErrorEv])

/-- Result of `delete_item`: the filesystem afterwards, whether the
confirmation dialog was shown, its message, and any further feedback. -/
structure DeleteOut where
  fs : FSys
  prompted : Bool
  promptMsg : String
  events : List Feedback
deriving DecidableEq, Repr

/-- Remove a directory with everything below it (`shutil.rmtree`). -/
def removeTreeFS (fs : FSys) (p : String) : FSys :=
  { dirs := fs.dirs.filter (fun q => !(decide (q = p) || isPre (p.data ++ ['/']) q.data)),
    files := fs.files.filter (fun pc => !(decide (pc.1 = p) || isPre (p.data ++ ['/']) pc.1.data)),
    broken := fs.broken }

/-- Remove a single file (`os.remove`); fails on a missing path. -/
def removeFileFS (fs : FSys) (p : String) : Option FSys :=
  if isfileFS fs p then
    some { fs with files := fs.files.filter (fun pc => !(decide (pc.1 = p))) }
  else none

/-- Error dialog when a deletion fails. -/
def deleteErrEv : Feedback := ⟨.error, "Error", "Could not delete."⟩

/-- Deletion `delete_item` (source lines 339-362): always asks first, the
question gaining a warning suffix when the target is a directory with
children; a declined dialog changes nothing; a confirmed one runs
`shutil.rmtree` on a directory and `os.remove` otherwise. -/
def delete_item (fs : FSys) (sel : Option String) (confirm : Bool) :
    DeleteOut :=
  match sel with
  | none => ⟨fs, false, "", []⟩
  | some src_path =>
    let item_name := basename src_path
    let is_dir := isdirFS fs src_path
    let baseMsg := "Are you sure you want to permanently delete " ++ item_name ++ "?"
    let msg :=
      if is_dir ∧ ((listdir fs src_path).getD []) ≠ [] then
        baseMsg ++ " WARNING: The folder is not empty!"
      else baseMsg
    if confirm then
      if is_dir then ⟨removeTreeFS fs src_path, true, msg, []⟩
      else
        match removeFileFS fs src_path with
        | some fs2 => ⟨fs2, true, msg, []⟩
        | none => ⟨fs, true, msg, [deleteErrEv]⟩
    else ⟨fs, true, msg, []⟩

/-- Status-bar event of `copy_item`. -/
def copiedEv (p : String) : Feedback := ⟨.info, "", "Copied " ++ basename p ++ "."⟩

/-- Status-bar event of `cut_item`. -/
def cutStatusEv (p : String) : Feedback := ⟨.info, "", "Cut " ++ basename p ++ "."⟩

/-- Clipboard filling `copy_item` (source lines 364-368): with a selection,
the whole clipboard is replaced by the selected path and the copy action. -/
def copy_item (st : AppState) (sel : Option String) : AppState × List Feedback :=
  match sel with
  | some p => ({ st with clipboard := some (p, ClipAction.copy) }, [copiedEv p])
  | none => (st, [])

/-- Clipboard filling `cut_item` (source lines 370-374), the cut analogue. -/
def cut_item (st : AppState) (sel : Option String) : AppState × List Feedback :=
  match sel with
  | some p => ({ st with clipboard := some (p, ClipAction.cut) }, [cutStatusEv p])
  | none => (st, [])

/-- Status-bar event of the self-paste guard. -/
def cannotPasteEv : Feedback := ⟨.info, "", "Cannot paste item into itself."⟩

/-- Error dialog when a paste fails. -/
def pasteErrEv : Feedback := ⟨.error, "Error", "Could not paste."⟩

/-- Rename a path that is the source or sits below it; `none` when the
path is unrelated to the source. -/
def renamePath (src dest p : String) : Option String :=
  if p = src then some dest
  else if isPre (src.data ++ ['/']) p.data then
    some ⟨dest.data ++ p.data.drop src.data.length⟩
  else none

/-- Whole-tree copy (`shutil.copytree`): every path at or below the source
gains a twin at the destination. -/
def copytreeFS (fs : FSys) (src dest : String) : FSys :=
  { dirs := fs.dirs ++ fs.dirs.filterMap (renamePath src dest),
    files := fs.files ++ fs.files.filterMap
      (fun pc => (renamePath src dest pc.1).map (fun q => (q, pc.2))),
    broken := fs.broken }

/-- Relocation of a path and everything below it, overwriting a plain file
already at the destination (POSIX rename semantics). -/
def relocateFS (fs : FSys) (src dest : String) : FSys :=
  { dirs := fs.dirs.map (fun p => (renamePath src dest p).getD p),
    files := (fs.files.filter (fun pc => !(decide (pc.1 = dest)))).map
      (fun pc => ((renamePath src dest pc.1).getD pc.1, pc.2)),
    broken := fs.broken }

/-- Move (`shutil.move`): fails on a missing source; a destination that is
an existing directory receives the source inside itself unless that inner
name is taken; otherwise the source is renamed onto the destination. -/
def moveFS (fs : FSys) (src dest : String) : Option FSys :=
  if existsPath fs src then
    if isdirFS fs dest then
      let real_dst := pathJoin dest (basename src)
      if existsPath fs real_dst then none else some (relocateFS fs src real_dst)
    else some (relocateFS fs src dest)
  else none

/-- Single-file copy (`shutil.copy2`): fails on a missing or directory
source and on a directory destination, silently overwrites an existing
destination file. -/
def copy2FS (fs : FSys) (src dest : String) : Option FSys :=
  if isdirFS fs dest then none
  else
    match fileContent fs src with
    | some c =>
      some (if isfileFS fs dest then
        { fs with files := fs.files.map (fun pc => if pc.1 = dest then (dest, c) else pc) }
      else { fs with files := fs.files ++ [(dest, c)] })
    | none => none

/-- Paste `paste_item` (source lines 376-406).  An empty clipboard does
nothing.  The self-paste guard turns the request away with only a
status-bar message.  A directory copy onto an existing destination raises
`FileExistsError`; on a confirmed replace the destination is deleted and
the source retries itself (line 404) — that retry is unrolled here, since
in a sequential model the second round always succeeds.  A successful cut
clears the clipboard; every other branch leaves it alone.  The
`populate_tree` refresh after a successful paste is elided. -/
def paste_item (fs : FSys) (st : AppState) (confirmReplace : Bool) :
    FSys × AppState × List Feedback :=
  match st.clipboard with
  | none => (fs, st, [])
  | some (src_path, action) =>
    let dest_path := pathJoin st.current_path (basename src_path)
    if src_path = st.current_path ∨ abspath src_path = abspath dest_path then
      (fs, st, [cannotPasteEv])
    else
      match action with
      | ClipAction.copy =>
        if isdirFS fs src_path then
          if existsPath fs dest_path then
            if confirmReplace then
              let fs1 :=
                if isdirFS fs dest_path then removeTreeFS fs dest_path
                else (removeFileFS fs dest_path).getD fs
              (copytreeFS fs1 src_path dest_path, st, [])
            else (fs, st, [])
          else (copytreeFS fs src_path dest_path, st, [])
        else
          match copy2FS fs src_path dest_path with
          | some fs2 => (fs2, st, [])
          | none => (fs, st, [pasteErrEv])
      | ClipAction.cut =>
        match moveFS fs src_path dest_path with
        | some fs2 => (fs2, { st with clipboard := none }, [])
        | none => (fs, st, [pasteErrEv])

/-- Continuation-byte test of the UTF-8 decoder. -/
def isCont (b : Nat) : Bool := 128 ≤ b && b ≤ 191

/-- Strict UTF-8 decoding of a byte list into code points, `none` exactly
when Python `bytes.decode("utf-8")` with the default strict error handler
raises `UnicodeDecodeError`: continuation bytes must lie in their ranges,
overlong forms, surrogates and values beyond U+10FFFF are refused. -/
def utf8DecodeStrict : List Nat → Option (List Nat)
  | [] => some []
  | b :: r =>
    if b ≤ 127 then (utf8DecodeStrict r).map (fun t => b :: t)
    else if b < 194 then none
    else if b ≤ 223 then
      match r with
      | c1 :: r1 =>
        if isCont c1 then
          (utf8DecodeStrict r1).map (fun t => ((b - 192) * 64 + (c1 - 128)) :: t)
        else none
      | [] => none
    else if b ≤ 239 then
      match r with
      | c1 :: c2 :: r2 =>
        let firstOk :=
          if b = 224 then 160 ≤ c1 && c1 ≤ 191
          else if b = 237 then 128 ≤ c1 && c1 ≤ 159
          else isCont c1
        if firstOk && isCont c2 then
          (utf8DecodeStrict r2).map
            (fun t => ((b - 224) * 4096 + (c1 - 128) * 64 + (c2 - 128)) :: t)
        else none
      | _ => none
    else if b ≤ 244 then
      match r with
      | c1 :: c2 :: c3 :: r3 =>
        let firstOk :=
          if b = 240 then 144 ≤ c1 && c1 ≤ 191
          else if b = 244 then 128 ≤ c1 && c1 ≤ 143
          else isCont c1
        if firstOk && isCont c2 && isCont c3 then
          (utf8DecodeStrict r3).map (fun t =>
            ((b - 240) * 262144 + (c1 - 128) * 4096 + (c2 - 128) * 64 + (c3 - 128)) :: t)
        else none
      | _ => none
    else none

/-- Outcome of loading a file into the editor: either the decoded text or
a failure, after which the source shows the event and destroys the
window. -/
inductive LoadResult
  | loaded (text : List Nat)
  | failed (ev : Feedback)
deriving DecidableEq, Repr

/-- Error dialog of `load_content`. -/
def readFailEv : Feedback := ⟨.error, "Error", "Failed to read file."⟩

/-- Editor loading `load_content` (source lines 30-37): the file is opened
with `encoding="utf-8"` and no `errors` argument, so decoding is strict;
any exception — a missing file or a `UnicodeDecodeError` — lands in the
handler that shows an error dialog and destroys the editor window. -/
def load_content (bytes : Option (List Nat)) : LoadResult :=
  match bytes with
  | none => .failed readFailEv
  | some bs =>
    match utf8DecodeStrict bs with
    | some cps => .loaded cps
    | none => .failed readFailEv

/-- Extension notion written from the words of the claim for `create_file`:
the name contains a dot followed by at least one character. -/
def claimHasExtL : List Char → Bool
  | [] => false
  | c :: r => (decide (c = '.') && !r.isEmpty) || claimHasExtL r

/-- String form of `claimHasExtL`. -/
def claimHasExt (s : String) : Bool := claimHasExtL s.data

/-- Checker for the ordering stated by the listing claim: every adjacent
pair of names is in case-insensitive order. -/
def ciSorted : List String → Bool
  | [] => true
  | [_] => true
  | a :: b :: r => ciLe a b && ciSorted (b :: r)

/-- Fixture: a directory holding one subdirectory and one file whose names
order the file first case-insensitively. -/
def fs4 : FSys := ⟨["/d", "/d/bdir"], [("/d/a.txt", [104, 105])], []⟩

/-- Fixture: session sitting in the fixture directory. -/
def st4 : AppState := ⟨"/d", none⟩

/-- Fixture: a directory with one file and one entry that fails to stat. -/
def fsG : FSys := ⟨["/d"], [("/d/a.txt", [104])], ["/d/ghost"]⟩

/-- Fixture: two top-level directories for navigation. -/
def fsNav : FSys := ⟨["/home/user", "/tmp"], [], []⟩

/-- Fixture: session sitting in the home directory with an empty
clipboard. -/
def stHome : AppState := ⟨"/home/user", none⟩

/-- Fixture: only the home directory exists, holding one file. -/
def fsHome : FSys := ⟨["/home/user"], [("/home/user/a.txt", [104])], []⟩

/-- Fixture: session whose current directory has been deleted
externally. -/
def stGone : AppState := ⟨"/gone", none⟩

/-- Fixture: a non-empty subdirectory to delete. -/
def fsDel : FSys := ⟨["/d", "/d/sub"], [("/d/sub/f.txt", [1])], []⟩

/-- Fixture: a source file outside the home directory, for a cut. -/
def fsCut : FSys := ⟨["/home/user", "/src"], [("/src/a.txt", [1])], []⟩

/-- Fixture: session in the home directory with the outside file cut onto
the clipboard. -/
def stCut : AppState := ⟨"/home/user", some ("/src/a.txt", ClipAction.cut)⟩

/-- Fixture: the home directory holding one file. -/
def fsCopy : FSys := ⟨["/home/user"], [("/home/user/a.txt", [1])], []⟩

/-- Fixture: session in the home directory with that same file copied onto
the clipboard, so a paste would land on itself. -/
def stCopy : AppState := ⟨"/home/user", some ("/home/user/a.txt", ClipAction.copy)⟩

/-- C1: for every byte count `b`, `get_human_readable_size` returns the
sentinel `"0 B"` at zero and otherwise the magnitude `b / 1024 ^ i` rounded
to two decimal places followed by the unit at index
`i = min 4 (bitLength b / 10)` of the table B, KB, MB, GB, TB — stated as
equality with `claimSizeFormat`, the formatter written from the words of
the claim. -/
theorem get_human_readable_size_matches_claim :
    ∀ b : Nat, get_human_readable_size b = claimSizeFormat b := by
  intro b
  rfl

/-- C2 counterexample: the claim fails twice on concrete names.  At `"x"`
the rejection dialog of `create_file` is warning level, not the error
level the claim requires; and the name `"x."`, which lacks an extension in
the sense of the claim (its only dot is followed by nothing), passes the
splitext check of the source and a file is created. -/
theorem create_file_claim_counterexample :
    (create_file ⟨["/home/user"], [], []⟩ ⟨"/home/user", none⟩ "x" =
        (⟨["/home/user"], [], []⟩, [invalidNameEv]) ∧
      invalidNameEv.level = Level.warning ∧ invalidNameEv.level ≠ Level.error) ∧
    (claimHasExt "x." = false ∧
      create_file ⟨["/home/user"], [], []⟩ ⟨"/home/user", none⟩ "x." =
        (⟨["/home/user"], [("/home/user/x.", [])], []⟩, [createdEv "x."])) := by
  exact ⟨⟨rfl, rfl, by decide⟩, rfl, rfl⟩

/-- C2 (amended): for every non-empty name, `create_file` rejects exactly
the names whose Python `splitext` extension is empty — with a
warning-level Invalid Name dialog and no filesystem change — while a name
with a nonempty `splitext` extension always passes the check (the
Invalid Name event never appears in its outcome). -/
theorem create_file_extension_policy (fs : FSys) (st : AppState) (name : String)
    (hne : name ≠ "") :
    (splitextExt name = "" → create_file fs st name = (fs, [invalidNameEv])) ∧
    (splitextExt name ≠ "" → invalidNameEv ∉ (create_file fs st name).2) ∧
    invalidNameEv.level = Level.warning := by
  refine ⟨fun hext => ?_, fun hext => ?_, rfl⟩
  · unfold create_file
    rw [if_neg hne, if_pos hext]
  · unfold create_file
    rw [if_neg hne, if_neg hext]
    cases touchFS fs (pathJoin st.current_path name) with
    | some fs2 => simp [invalidNameEv, createdEv]
    | none => simp [invalidNameEv, createErrorEv]

/-- C2 witness: the amended theorem applied at the extensionless name
`"x"` in a concrete one-directory filesystem. -/
theorem create_file_extension_policy_witness :
    create_file ⟨["/home/user"], [], []⟩ ⟨"/home/user", none⟩ "x" =
      (⟨["/home/user"], [], []⟩, [invalidNameEv]) :=
  (create_file_extension_policy ⟨["/home/user"], [], []⟩ ⟨"/home/user", none⟩ "x"
    (by decide)).1 rfl

/-- C3 counterexample: the byte `0xFF` is not decodable, and `load_content`
on a file holding it reports an error-level event (after which the source
destroys the editor window) instead of returning the content with the
invalid byte dropped or replaced. -/
theorem load_content_claim_counterexample :
    utf8DecodeStrict [255] = none ∧
    load_content (some [255]) = LoadResult.failed readFailEv ∧
    readFailEv.level = Level.error := by
  exact ⟨rfl, rfl, rfl⟩

/-- C3 (amended): `load_content` decodes strictly — bytes that are not
valid UTF-8 abort the read with an error-level event (and the source then
destroys the editor window), while fully valid bytes load completely. -/
theorem load_content_strict_decode (bs : List Nat) :
    (utf8DecodeStrict bs = none →
      load_content (some bs) = LoadResult.failed readFailEv ∧
        readFailEv.level = Level.error) ∧
    (∀ t, utf8DecodeStrict bs = some t → load_content (some bs) = LoadResult.loaded t) := by
  constructor
  · intro hbad
    exact ⟨by simp [load_content, hbad], rfl⟩
  · intro t hok
    simp [load_content, hok]

/-- C3 witness: the amended theorem applied to the single invalid byte
`0xFF`. -/
theorem load_content_strict_decode_witness :
    load_content (some [255]) = LoadResult.failed readFailEv ∧
      readFailEv.level = Level.error :=
  (load_content_strict_decode [255]).1 rfl

/-- Totality of the lexicographic byte order. -/
theorem lexLe_total : ∀ a b : List Char, lexLe a b = true ∨ lexLe b a = true
  | [], _ => Or.inl rfl
  | _ :: _, [] => Or.inr rfl
  | a :: as, b :: bs => by
    rcases Nat.lt_trichotomy a.toNat b.toNat with h | h | h
    · exact Or.inl (by simp [lexLe, h])
    · rcases lexLe_total as bs with ih | ih
      · exact Or.inl (by simp [lexLe, h, ih])
      · exact Or.inr (by simp [lexLe, h, ih])
    · exact Or.inr (by simp [lexLe, h])

/-- Transitivity of the lexicographic byte order. -/
theorem lexLe_trans :
    ∀ a b c : List Char, lexLe a b = true → lexLe b c = true → lexLe a c = true
  | [], _, _, _, _ => rfl
  | _ :: _, [], _, h1, _ => by simp [lexLe] at h1
  | _ :: _, _ :: _, [], _, h2 => by simp [lexLe] at h2
  | a :: as, b :: bs, c :: cs, h1, h2 => by
    rcases Nat.lt_trichotomy a.toNat b.toNat with hab | hab | hab
    · rcases Nat.lt_trichotomy b.toNat c.toNat with hbc | hbc | hbc
      · simp [lexLe, Nat.lt_trans hab hbc]
      · simp [lexLe, hbc ▸ hab]
      · simp [lexLe, hbc, Nat.lt_asymm hbc] at h2
    · rcases Nat.lt_trichotomy b.toNat c.toNat with hbc | hbc | hbc
      · simp [lexLe, hab ▸ hbc]
      · have hac : a.toNat = c.toNat := hab.trans hbc
        simp only [lexLe, hab, lt_irrefl, if_false] at h1
        simp only [lexLe, hbc, lt_irrefl, if_false] at h2
        simp [lexLe, hac, lexLe_trans as bs cs h1 h2]
      · simp [lexLe, hbc, Nat.lt_asymm hbc] at h2
    · simp [lexLe, hab, Nat.lt_asymm hab] at h1

instance : IsTotal String ciLeR :=
  ⟨fun a b => lexLe_total (strLower a).data (strLower b).data⟩

instance : IsTrans String ciLeR :=
  ⟨fun _ _ _ h1 h2 => lexLe_trans _ _ _ h1 h2⟩

/-- A row produced by `insert_item` carries the name it was given. -/
theorem insert_item_name (fs : FSys) (cur : String) (n : String) (r : Row)
    (h : insert_item fs cur n = some r) : r.name = n := by
  simp only [insert_item] at h
  split at h
  · exact absurd h (by simp)
  · split at h
    · cases h
      rfl
    · cases h
      rfl

/-- The names of the rows surviving `insert_item` form a sublist of the
names they came from. -/
theorem names_filterMap_sublist (fs : FSys) (cur : String) :
    ∀ l : List String, ((l.filterMap (insert_item fs cur)).map Row.name).Sublist l := by
  intro l
  induction l with
  | nil => simp
  | cons a l ih =>
    cases h : insert_item fs cur a with
    | none =>
      rw [List.filterMap_cons_none h]
      exact ih.cons a
    | some r =>
      rw [List.filterMap_cons_some h]
      rw [List.map_cons, insert_item_name fs cur a r h]
      exact ih.cons₂ a

/-- The row names drawn from a case-insensitively sorted name list are
themselves sorted. -/
theorem sorted_row_names (fs : FSys) (cur : String) (l : List String) :
    List.Sorted ciLeR (((sortCI l).filterMap (insert_item fs cur)).map Row.name) :=
  List.Pairwise.sublist (names_filterMap_sublist fs cur (sortCI l))
    (List.sorted_insertionSort ciLeR l)

/-- A path with no stat information is not a directory. -/
theorem statFS_none_not_isdir (fs : FSys) (p : String) (h : statFS fs p = none) :
    isdirFS fs p = false := by
  by_cases hd : isdirFS fs p
  · simp [statFS, hd] at h
  · simpa using hd

/-- A path with no stat information is not a file. -/
theorem statFS_none_not_isfile (fs : FSys) (p : String) (h : statFS fs p = none) :
    isfileFS fs p = false := by
  have hd := statFS_none_not_isdir fs p h
  unfold statFS at h
  rw [hd] at h
  simp only [Bool.false_eq_true, if_false] at h
  unfold isfileFS
  cases hc : fileContent fs p with
  | none => rfl
  | some c => rw [hc] at h; cases h

/-- C4 counterexample: in a directory holding the subdirectory `bdir` and
the file `a.txt`, the listing shows `bdir` before `a.txt`, so the two
adjacent entries violate case-insensitive order — the listing is not one
case-insensitively sorted sequence. -/
theorem populate_tree_sorted_counterexample :
    (populate_tree fs4 st4).map (fun o => o.2.1.map Row.name) = some ["bdir", "a.txt"] ∧
    ciLe "bdir" "a.txt" = false ∧
    ciSorted ["bdir", "a.txt"] = false := by
  exact ⟨by decide, by decide, by decide⟩

/-- C4 (amended): the listing is the case-insensitively sorted directories
followed by the case-insensitively sorted files — each of the two groups
is sorted, but the concatenation as a whole is not. -/
theorem populate_tree_grouped_sorted (fs : FSys) (st : AppState) (items : List String)
    (h : listdir fs st.current_path = some items) :
    populate_tree fs st = some (st,
      ((folderNames fs st.current_path items).filterMap (insert_item fs st.current_path)) ++
        ((fileNamesCI fs st.current_path items).filterMap (insert_item fs st.current_path)),
      [loadedEv items.length]) ∧
    List.Sorted ciLeR
      (((folderNames fs st.current_path items).filterMap
        (insert_item fs st.current_path)).map Row.name) ∧
    List.Sorted ciLeR
      (((fileNamesCI fs st.current_path items).filterMap
        (insert_item fs st.current_path)).map Row.name) := by
  refine ⟨?_, ?_, ?_⟩
  · simp [populate_tree, h, buildRows, List.filterMap_append]
  · exact sorted_row_names fs st.current_path _
  · exact sorted_row_names fs st.current_path _

/-- C4 witness: the amended theorem applied to the fixture listing. -/
theorem populate_tree_grouped_sorted_witness :
    populate_tree fs4 st4 = some (st4,
      ((folderNames fs4 st4.current_path ["bdir", "a.txt"]).filterMap
        (insert_item fs4 st4.current_path)) ++
        ((fileNamesCI fs4 st4.current_path ["bdir", "a.txt"]).filterMap
          (insert_item fs4 st4.current_path)),
      [loadedEv 2]) ∧
    List.Sorted ciLeR
      (((folderNames fs4 st4.current_path ["bdir", "a.txt"]).filterMap
        (insert_item fs4 st4.current_path)).map Row.name) ∧
    List.Sorted ciLeR
      (((fileNamesCI fs4 st4.current_path ["bdir", "a.txt"]).filterMap
        (insert_item fs4 st4.current_path)).map Row.name) :=
  populate_tree_grouped_sorted fs4 st4 ["bdir", "a.txt"] (by decide)

/-- C5 counterexample: the entry `ghost` of the fixture directory fails to
stat, and the listing skips it while emitting only the info-level loaded
message — no warning-level feedback event is produced for it. -/
theorem stat_failure_warning_counterexample :
    childNames fsG "/d" = ["a.txt", "ghost"] ∧
    statFS fsG (pathJoin "/d" "ghost") = none ∧
    populate_tree fsG ⟨"/d", none⟩ =
      some (⟨"/d", none⟩, [⟨"a.txt", ".TXT File", "1.0 B", "textfile"⟩], [loadedEv 2]) ∧
    (loadedEv 2).level ≠ Level.warning := by
  exact ⟨by decide, by decide, by decide, by decide⟩

/-- C5 (amended): an entry that fails to stat is skipped silently — the
listing completes with only the info-level loaded message, and no row and
no feedback event mention the failed entry. -/
theorem stat_failure_silent_skip (fs : FSys) (st : AppState) (items : List String)
    (name : String) (h : listdir fs st.current_path = some items)
    (hstat : statFS fs (pathJoin st.current_path name) = none) :
    populate_tree fs st = some (st, buildRows fs st.current_path items,
      [loadedEv items.length]) ∧
    name ∉ (buildRows fs st.current_path items).map Row.name ∧
    (loadedEv items.length).level = Level.info := by
  refine ⟨by simp [populate_tree, h], ?_, rfl⟩
  intro hin
  have hdirn := statFS_none_not_isdir fs (pathJoin st.current_path name) hstat
  have hfilen := statFS_none_not_isfile fs (pathJoin st.current_path name) hstat
  have hsub := names_filterMap_sublist fs st.current_path
    (folderNames fs st.current_path items ++ fileNamesCI fs st.current_path items)
  have hmem : name ∈ folderNames fs st.current_path items ++
      fileNamesCI fs st.current_path items := hsub.subset hin
  rcases List.mem_append.mp hmem with hf | hf
  · have : name ∈ items.filter (fun i => isdirFS fs (pathJoin st.current_path i)) := by
      simpa [folderNames, sortCI] using hf
    have := (List.mem_filter.mp this).2
    rw [hdirn] at this
    cases this
  · have : name ∈ items.filter (fun i => isfileFS fs (pathJoin st.current_path i)) := by
      simpa [fileNamesCI, sortCI] using hf
    have := (List.mem_filter.mp this).2
    rw [hfilen] at this
    cases this

/-- C5 witness: the amended theorem applied to the fixture with the
stat-failing entry `ghost`. -/
theorem stat_failure_silent_skip_witness :
    populate_tree fsG ⟨"/d", none⟩ = some (⟨"/d", none⟩,
      buildRows fsG "/d" ["a.txt", "ghost"], [loadedEv 2]) ∧
    "ghost" ∉ (buildRows fsG "/d" ["a.txt", "ghost"]).map Row.name ∧
    (loadedEv 2).level = Level.info :=
  stat_failure_silent_skip fsG ⟨"/d", none⟩ ["a.txt", "ghost"] "ghost"
    (by decide) (by decide)

/-- C6: a navigation whose target is not an existing directory reports an
error-level event and leaves the session state exactly as it was; a
directory target (already in absolute normalised form, as every path the
application stores) updates the state to the resolved absolute path and
relists it. -/
theorem navigate_to_path_spec (fs : FSys) (st : AppState) (path : String) :
    (isdirFS fs path = false →
      navigate_to_path fs st path = some (st, none, [invalidPathEv path]) ∧
        (invalidPathEv path).level = Level.error) ∧
    (isdirFS fs path = true → abspath path = path →
      navigate_to_path fs st path = some ({ st with current_path := abspath path },
        some (buildRows fs (abspath path) (childNames fs (abspath path))),
        [loadedEv (childNames fs (abspath path)).length])) := by
  constructor
  · intro hnd
    exact ⟨by simp [navigate_to_path, hnd], rfl⟩
  · intro hd habs
    simp [navigate_to_path, populate_tree, listdir, habs, hd]

/-- C6 witness: the theorem applied in a filesystem with two directories,
once at a missing target and once at the directory `/tmp`. -/
theorem navigate_to_path_spec_witness :
    (navigate_to_path fsNav stHome "/nope" =
        some (stHome, none, [invalidPathEv "/nope"]) ∧
      (invalidPathEv "/nope").level = Level.error) ∧
    navigate_to_path fsNav stHome "/tmp" =
      some ({ stHome with current_path := abspath "/tmp" },
        some (buildRows fsNav (abspath "/tmp") (childNames fsNav (abspath "/tmp"))),
        [loadedEv (childNames fsNav (abspath "/tmp")).length]) :=
  ⟨(navigate_to_path_spec fsNav stHome "/nope").1 (by decide),
    (navigate_to_path_spec fsNav stHome "/tmp").2 (by decide) (by decide)⟩

/-- C7: when the current directory no longer exists but the home directory
does, the listing reports the missing path, resets the session state to
the home directory and lists that instead. -/
theorem populate_tree_home_fallback (fs : FSys) (st : AppState)
    (hmiss : isdirFS fs st.current_path = false)
    (hhome : isdirFS fs homeDir = true) :
    populate_tree fs st =
      some ({ st with current_path := homeDir },
        buildRows fs homeDir (childNames fs homeDir),
        [notFoundEv st.current_path, loadedEv (childNames fs homeDir).length]) := by
  simp [populate_tree, listdir, hmiss, hhome]

/-- C7 witness: the theorem applied to a session whose current directory
was deleted while the home directory holds one file. -/
theorem populate_tree_home_fallback_witness :
    populate_tree fsHome stGone =
      some ({ stGone with current_path := homeDir },
        buildRows fsHome homeDir (childNames fsHome homeDir),
        [notFoundEv "/gone", loadedEv (childNames fsHome homeDir).length]) :=
  populate_tree_home_fallback fsHome stGone (by decide) (by decide)

/-- C9: deletion always passes through the confirmation dialog — the
question carries a warning suffix exactly when the target is a directory
with children; a declined dialog leaves the filesystem untouched and emits
no error-level feedback (a silent cancellation); a confirmed dialog on a
directory removes the whole tree. -/
theorem delete_item_confirmation (fs : FSys) (sel : String) (confirm : Bool) :
    (delete_item fs (some sel) false).fs = fs ∧
    (∀ ev ∈ (delete_item fs (some sel) false).events, ev.level ≠ Level.error) ∧
    (delete_item fs (some sel) confirm).prompted = true ∧
    (isdirFS fs sel = true → (listdir fs sel).getD [] ≠ [] →
      (delete_item fs (some sel) confirm).promptMsg =
        "Are you sure you want to permanently delete " ++ basename sel ++
          "?" ++ " WARNING: The folder is not empty!") ∧
    (isdirFS fs sel = true → confirm = true →
      (delete_item fs (some sel) confirm).fs = removeTreeFS fs sel) := by
  refine ⟨?_, ?_, ?_, ?_, ?_⟩
  · simp [delete_item]
  · simp [delete_item]
  · cases confirm with
    | false => simp [delete_item]
    | true =>
      by_cases hd : isdirFS fs sel = true
      · simp [delete_item, hd]
      · simp only [Bool.not_eq_true] at hd
        cases hrem : removeFileFS fs sel with
        | none => simp [delete_item, hd, hrem]
        | some fs2 => simp [delete_item, hd, hrem]
  · intro hd hne
    cases confirm with
    | false => simp [delete_item, hd, hne]
    | true =>
      by_cases hd2 : isdirFS fs sel = true
      · simp [delete_item, hd, hne]
      · exact absurd hd hd2
  · intro hd hc
    subst hc
    simp [delete_item, hd]

/-- C9 witness: the theorem applied to a non-empty subdirectory with the
dialog confirmed. -/
theorem delete_item_confirmation_witness :
    (delete_item fsDel (some "/d/sub") false).fs = fsDel ∧
    (∀ ev ∈ (delete_item fsDel (some "/d/sub") false).events, ev.level ≠ Level.error) ∧
    (delete_item fsDel (some "/d/sub") true).prompted = true ∧
    (delete_item fsDel (some "/d/sub") true).promptMsg =
      "Are you sure you want to permanently delete " ++ basename "/d/sub" ++
        "?" ++ " WARNING: The folder is not empty!" ∧
    (delete_item fsDel (some "/d/sub") true).fs = removeTreeFS fsDel "/d/sub" := by
  have h := delete_item_confirmation fsDel "/d/sub" true
  exact ⟨h.1, h.2.1, h.2.2.1, h.2.2.2.1 (by decide) (by decide), h.2.2.2.2 (by decide) rfl⟩

/-- C8: the clipboard always holds at most one pending pair — structurally
an optional pair in this model, matching the single dict of the source —
and: a copy or cut with a selection replaces the entire prior entry
whatever it was; a paste with a copy entry leaves the clipboard unchanged
on every path through the operation; a paste with a cut entry that
actually moves clears the clipboard. -/
theorem clipboard_invariant :
    (∀ (st : AppState) (p : String),
      (copy_item st (some p)).1.clipboard = some (p, ClipAction.copy)) ∧
    (∀ (st : AppState) (p : String),
      (cut_item st (some p)).1.clipboard = some (p, ClipAction.cut)) ∧
    (∀ (fs : FSys) (st : AppState) (c : Bool) (src : String),
      st.clipboard = some (src, ClipAction.copy) →
      (paste_item fs st c).2.1.clipboard = st.clipboard) ∧
    (∀ (fs : FSys) (st : AppState) (c : Bool) (src : String),
      st.clipboard = some (src, ClipAction.cut) →
      ¬(src = st.current_path ∨
        abspath src = abspath (pathJoin st.current_path (basename src))) →
      (moveFS fs src (pathJoin st.current_path (basename src))).isSome = true →
      (paste_item fs st c).2.1.clipboard = none) := by
  refine ⟨fun st p => rfl, fun st p => rfl, ?_, ?_⟩
  · intro fs st c src hclip
    simp only [paste_item, hclip]
    repeat' first
    | exact hclip
    | split
  · intro fs st c src hclip hng hmv
    obtain ⟨fs2, hfs2⟩ := Option.isSome_iff_exists.mp hmv
    simp only [paste_item, hclip]
    rw [if_neg hng, hfs2]

/-- C8 witness: the invariant applied to concrete copy, cut and paste
requests, the cut paste moving a file from `/src` into the home
directory. -/
theorem clipboard_invariant_witness :
    (copy_item stHome (some "/src/a.txt")).1.clipboard =
      some ("/src/a.txt", ClipAction.copy) ∧
    (cut_item stHome (some "/src/a.txt")).1.clipboard =
      some ("/src/a.txt", ClipAction.cut) ∧
    (paste_item fsCut ⟨"/home/user", some ("/src/a.txt", ClipAction.copy)⟩
        false).2.1.clipboard =
      (⟨"/home/user", some ("/src/a.txt", ClipAction.copy)⟩ : AppState).clipboard ∧
    (paste_item fsCut stCut false).2.1.clipboard = none := by
  have h := clipboard_invariant
  exact ⟨h.1 stHome "/src/a.txt", h.2.1 stHome "/src/a.txt",
    h.2.2.1 fsCut ⟨"/home/user", some ("/src/a.txt", ClipAction.copy)⟩ false
      "/src/a.txt" rfl,
    h.2.2.2 fsCut stCut false "/src/a.txt" rfl (by decide) (by decide)⟩

/-- C10: when the clipboard source is the current directory itself, or
equals the destination that the paste would produce in the current
directory, `paste_item` refuses before any filesystem call: the
filesystem is returned untouched, the session state — clipboard included —
is unchanged, and only the status message appears, for both actions. -/
theorem paste_item_self_guard (fs : FSys) (st : AppState) (c : Bool) (src : String)
    (act : ClipAction) (hclip : st.clipboard = some (src, act))
    (hself : src = st.current_path ∨ src = pathJoin st.current_path (basename src)) :
    paste_item fs st c = (fs, st, [cannotPasteEv]) := by
  have hguard : src = st.current_path ∨
      abspath src = abspath (pathJoin st.current_path (basename src)) := by
    rcases hself with h | h
    · exact Or.inl h
    · exact Or.inr (by rw [← h])
  simp only [paste_item, hclip]
  rw [if_pos hguard]

/-- C10 witness: the theorem applied to a copied file pasted into its own
directory, where the produced destination equals the source. -/
theorem paste_item_self_guard_witness :
    paste_item fsCopy stCopy false = (fsCopy, stCopy, [cannotPasteEv]) :=
  paste_item_self_guard fsCopy stCopy false "/home/user/a.txt" ClipAction.copy rfl
    (Or.inr (by decide))
